import Mathlib

/-!
Verification of the Library_Project repository.

The development shallowly embeds two layers of the code base:

* the database-backed service layer (`src/app/models.py`,
  `src/app/db_models.py`, `src/app/repositories.py`, `src/app/services.py`):
  books, members and borrow records are rows of in-memory tables modelled as
  Lean lists kept in insertion order; SQL queries become list traversals.
* the legacy file-backed layer (`src/library.py`): the Book/EBook/AudioBook
  class hierarchy becomes a sum type, JSON object rows become a record
  structure, and save/load become pure functions on lists of those records.

Timestamps never influence any of the verified properties, so a borrow
record only keeps whether its `return_date` column is NULL (field
`returned`; the row is an active loan exactly when `returned = false`).
-/

namespace App

/-- Domain model from `src/app/models.py` (class `Book`): isbn, title,
author and a status string defaulting to "available". -/
structure Book where
  isbn : String
  title : String
  author : String
  status : String
  deriving Repr, DecidableEq

/-- Row of the `members` table from `src/app/db_models.py` (`MemberDB`);
`join_date` is irrelevant to every verified property and is omitted. -/
structure Member where
  id : Nat
  name : String
  deriving Repr, DecidableEq

/-- Row of the `borrow_records` table from `src/app/db_models.py`
(`BorrowRecordDB`).  `returned = true` models a non-NULL `return_date`
column; the concrete timestamps play no role in any verified property. -/
structure BorrowRecord where
  member_id : Nat
  isbn : String
  returned : Bool
  deriving Repr, DecidableEq

/-- The three tables of the database, each as a list in insertion order
(SQLite returns unordered queries in rowid order). -/
structure LibState where
  books : List Book
  members : List Member
  records : List BorrowRecord
  deriving Repr, DecidableEq

/-- The empty database. -/
def LibState.empty : LibState := ⟨[], [], []⟩

/-- Error taxonomy of the service layer.  The service raises ValueError
with distinct messages; the spec names them DuplicateError, NotFoundError
and InvalidStateError.  `multipleResults` models the MultipleResultsFound
exception SQLAlchemy's `scalar_one_or_none` raises when a query returns
more than one row. -/
inductive LibError where
  | duplicate
  | notFound
  | invalidState
  | multipleResults
  deriving Repr, DecidableEq

end App

namespace BookRepository

open App

/-- `BookRepository.get_by_isbn`: SELECT the row whose primary key `isbn`
matches (first match in the list model; the key is unique in reachable
states). -/
def get_by_isbn (books : List Book) (isbn : String) : Option Book :=
  books.find? fun b => b.isbn == isbn

/-- `BookRepository.create`: INSERT appends the row. -/
def create (books : List Book) (b : Book) : List Book :=
  books ++ [b]

/-- `BookRepository.update_status`: UPDATE books SET status WHERE isbn
matches. -/
def update_status (books : List Book) (isbn status : String) : List Book :=
  books.map fun b => if b.isbn == isbn then { b with status := status } else b

/-- `BookRepository.delete`: DELETE WHERE isbn matches; returns whether any
row was deleted (`rowcount > 0`) together with the new table. -/
def delete (books : List Book) (isbn : String) : Bool × List Book :=
  (books.any (fun b => b.isbn == isbn), books.filter fun b => !(b.isbn == isbn))

/-- Lowercasing of a string, character by character (the semantics of both
SQL ILIKE's case folding and Python's `str.lower()` on this data). -/
def lower (s : String) : String :=
  ⟨s.data.map Char.toLower⟩

/-- Substring occurrence over character lists: the pattern occurs at the
head or inside the tail; the empty pattern occurs everywhere.  (Used on
the specification side of C7, not by the query embedding.) -/
def containsSub (s pat : List Char) : Bool :=
  match s with
  | [] => pat.isEmpty
  | _ :: rest => pat.isPrefixOf s || containsSub rest pat

/-- SQL LIKE pattern matching over character lists: `%` matches any
(possibly empty) span, `_` matches exactly one character, every other
pattern character matches itself. -/
def likeMatch : List Char → List Char → Bool
  | [], t => t.isEmpty
  | p :: ps, t =>
    if p = '%' then t.tails.any fun suf => likeMatch ps suf
    else
      match t with
      | [] => false
      | x :: ts => (if p = '_' then true else p == x) && likeMatch ps ts

/-- The `ilike(f"%{pat}%")` filter used by `get_all` and `count`: the
column value is matched case-insensitively against the LIKE pattern
`'%' + pat + '%'`, with `%` and `_` inside `pat` keeping their SQL
wildcard meaning (the code interpolates the filter into the pattern
without escaping). -/
def ilike (field pat : String) : Bool :=
  likeMatch ('%' :: ((lower pat).data ++ ['%'])) (lower field).data

/-- `BookRepository.get_all`: builds the query by conditionally adding the
three WHERE clauses (Python `if author:` skips the clause when the filter
is `None` or the empty string), then applies OFFSET `skip` and LIMIT
`limit`. -/
def get_all (books : List Book) (skip limit : Nat)
    (author title status : Option String) : List Book :=
  let q := books
  let q := match author with
    | some a => if a = "" then q else q.filter fun b => ilike b.author a
    | none => q
  let q := match title with
    | some t => if t = "" then q else q.filter fun b => ilike b.title t
    | none => q
  let q := match status with
    | some st => if st = "" then q else q.filter fun b => b.status == st
    | none => q
  (q.drop skip).take limit

end BookRepository

namespace BorrowRecordRepository

open App

/-- `BorrowRecordRepository.create`: INSERT a new record with NULL
`return_date`. -/
def create (records : List BorrowRecord) (member_id : Nat) (isbn : String) :
    List BorrowRecord :=
  records ++ [⟨member_id, isbn, false⟩]

/-- The rows an active-loan query for `isbn` returns: isbn matches and
`return_date IS NULL`. -/
def activeFor (records : List BorrowRecord) (isbn : String) : List BorrowRecord :=
  records.filter fun r => r.isbn == isbn && !r.returned

/-- `BorrowRecordRepository.get_active_by_isbn`: SELECT the active record
for a book; `scalar_one_or_none` yields `none` for zero rows, the row for
one, and raises MultipleResultsFound for more. -/
def get_active_by_isbn (records : List BorrowRecord) (isbn : String) :
    Except LibError (Option BorrowRecord) :=
  match activeFor records isbn with
  | [] => .ok none
  | [r] => .ok (some r)
  | _ => .error .multipleResults

/-- The WHERE clause of `BorrowRecordRepository.return_book`: member,
isbn and `return_date IS NULL` all match. -/
def matchesRow (r : BorrowRecord) (member_id : Nat) (isbn : String) : Bool :=
  r.member_id == member_id && r.isbn == isbn && !r.returned

/-- The row transformation of the UPDATE in
`BorrowRecordRepository.return_book`: set `return_date` on every matching
active row, leave the others untouched. -/
def closeLoans (records : List BorrowRecord) (member_id : Nat) (isbn : String) :
    List BorrowRecord :=
  records.map fun r =>
    if matchesRow r member_id isbn then { r with returned := true } else r

/-- `BorrowRecordRepository.return_book`: UPDATE setting `return_date` on
every matching active row; returns `rowcount > 0` together with the new
table. -/
def return_book (records : List BorrowRecord) (member_id : Nat) (isbn : String) :
    Bool × List BorrowRecord :=
  (records.any fun r => matchesRow r member_id isbn, closeLoans records member_id isbn)

end BorrowRecordRepository

namespace LibraryService

open App

/-- `LibraryService.add_book`: fail with the duplicate error if the isbn is
already catalogued, else insert the book (status taken from the input
object, as `BookRepository.create` copies `book.status`). -/
def add_book (s : LibState) (b : Book) : Except LibError LibState :=
  match BookRepository.get_by_isbn s.books b.isbn with
  | some _ => .error .duplicate
  | none => .ok { s with books := BookRepository.create s.books b }

/-- `LibraryService.get_book`. -/
def get_book (s : LibState) (isbn : String) : Option Book :=
  BookRepository.get_by_isbn s.books isbn

/-- `LibraryService.delete_book`: delegates to the repository delete; loan
records are untouched. -/
def delete_book (s : LibState) (isbn : String) : Bool × LibState :=
  let (deleted, books) := BookRepository.delete s.books isbn
  (deleted, { s with books := books })

/-- `LibraryService.borrow_book`: book must exist (else not-found error),
its status must be "available" (else invalid-state error), no active
record may exist (else invalid-state error); then create the borrow record
and set the status to "borrowed".  The member id is never validated. -/
def borrow_book (s : LibState) (member_id : Nat) (isbn : String) :
    Except LibError LibState :=
  match BookRepository.get_by_isbn s.books isbn with
  | none => .error .notFound
  | some db_book =>
    if db_book.status ≠ "available" then .error .invalidState
    else
      match BorrowRecordRepository.get_active_by_isbn s.records isbn with
      | .error e => .error e
      | .ok (some _) => .error .invalidState
      | .ok none =>
        .ok { s with
              records := BorrowRecordRepository.create s.records member_id isbn,
              books := BookRepository.update_status s.books isbn "borrowed" }

/-- `LibraryService.return_book`: book must exist (else not-found error);
then close the matching active record; only on success set the status back
to "available".  The boolean result is the repository's success flag. -/
def return_book (s : LibState) (member_id : Nat) (isbn : String) :
    Except LibError (Bool × LibState) :=
  match BookRepository.get_by_isbn s.books isbn with
  | none => .error .notFound
  | some _ =>
    let (success, records) :=
      BorrowRecordRepository.return_book s.records member_id isbn
    if success then
      .ok (true, { s with
                   records := records,
                   books := BookRepository.update_status s.books isbn "available" })
    else
      .ok (false, { s with records := records })

end LibraryService

namespace App

/-- The four operations of claim C1's sequences. -/
inductive Op where
  | add (b : Book)
  | borrow (member_id : Nat) (isbn : String)
  | ret (member_id : Nat) (isbn : String)
  | del (isbn : String)
  deriving Repr, DecidableEq

/-- Execute one service call; a raised error leaves the database unchanged
(every error is raised before the first write). -/
def step (s : LibState) (op : Op) : LibState :=
  match op with
  | .add b =>
    match LibraryService.add_book s b with
    | .ok s1 => s1
    | .error _ => s
  | .borrow m i =>
    match LibraryService.borrow_book s m i with
    | .ok s1 => s1
    | .error _ => s
  | .ret m i =>
    match LibraryService.return_book s m i with
    | .ok (_, s1) => s1
    | .error _ => s
  | .del i => (LibraryService.delete_book s i).2

/-- Run a sequence of operations from the empty store. -/
def runOps (ops : List Op) : LibState :=
  ops.foldl step LibState.empty

/-- The consistency invariant of claim C1: a catalogued book has status
"borrowed" exactly when an active loan record for its isbn exists. -/
def StatusLoanInv (s : LibState) : Prop :=
  ∀ b ∈ s.books,
    (b.status = "borrowed" ↔ BorrowRecordRepository.activeFor s.records b.isbn ≠ [])

instance : DecidablePred StatusLoanInv := fun s => by
  unfold StatusLoanInv; infer_instance

end App

namespace Legacy

/-- The Book/EBook/AudioBook class hierarchy of `src/library.py` as a sum
type: shared fields title, author, isbn, is_borrowed, plus the subtype
fields `file_format` (EBook) and `duration` (AudioBook, minutes). -/
inductive Book where
  | book (title author isbn : String) (is_borrowed : Bool)
  | ebook (title author isbn : String) (is_borrowed : Bool) (file_format : String)
  | audiobook (title author isbn : String) (is_borrowed : Bool) (duration : Int)
  deriving Repr, DecidableEq

/-- The `title` attribute. -/
def Book.title : Book → String
  | .book t _ _ _ => t
  | .ebook t _ _ _ _ => t
  | .audiobook t _ _ _ _ => t

/-- The `author` attribute. -/
def Book.author : Book → String
  | .book _ a _ _ => a
  | .ebook _ a _ _ _ => a
  | .audiobook _ a _ _ _ => a

/-- The `isbn` attribute. -/
def Book.isbn : Book → String
  | .book _ _ i _ => i
  | .ebook _ _ i _ _ => i
  | .audiobook _ _ i _ _ => i

/-- The `is_borrowed` attribute. -/
def Book.borrowedFlag : Book → Bool
  | .book _ _ _ f => f
  | .ebook _ _ _ f _ => f
  | .audiobook _ _ _ f _ => f

/-- Assignment `book.is_borrowed = v`. -/
def Book.setBorrowed : Book → Bool → Book
  | .book t a i _, v => .book t a i v
  | .ebook t a i _ ff, v => .ebook t a i v ff
  | .audiobook t a i _ d, v => .audiobook t a i v d

/-- One JSON object of the persisted array: the `type` discriminator plus
the base fields and the optional subtype fields.  Absent keys are `none`
(`type` is read with `data.get("type", "Book")`; `file_format` and
`duration` are accessed with `data[...]`, raising KeyError when absent). -/
structure Rec where
  type : Option String
  title : String
  author : String
  isbn : String
  is_borrowed : Bool
  file_format : Option String
  duration : Option Int
  deriving Repr, DecidableEq

/-- `to_dict` of each class: the base dict carries the class name as the
`type` discriminator; `EBook.to_dict` adds `file_format`, and
`AudioBook.to_dict` adds `duration`. -/
def toDict : Book → Rec
  | .book t a i f => ⟨some "Book", t, a, i, f, none, none⟩
  | .ebook t a i f ff => ⟨some "EBook", t, a, i, f, some ff, none⟩
  | .audiobook t a i f d => ⟨some "AudioBook", t, a, i, f, none, some d⟩

/-- `Library.save_to_json`: the persisted file is the array of each book's
`to_dict`. -/
def saveRecords (books : List Book) : List Rec :=
  books.map toDict

/-- The loop body of `Library.load_from_json`: dispatch construction on
`data.get("type", "Book")` (EBook and AudioBook read their extra field
with a plain indexing that raises KeyError when absent, modelled as
`none`), defaulting to the base class; then set `is_borrowed` when the
stored flag is truthy. -/
def loadRec (r : Rec) : Option Book :=
  let book_type := r.type.getD "Book"
  let made : Option Book :=
    if book_type = "EBook" then
      match r.file_format with
      | some ff => some (.ebook r.title r.author r.isbn false ff)
      | none => none
    else if book_type = "AudioBook" then
      match r.duration with
      | some d => some (.audiobook r.title r.author r.isbn false d)
      | none => none
    else
      some (.book r.title r.author r.isbn false)
  made.map fun b => if r.is_borrowed then b.setBorrowed true else b

/-- `Library.load_from_json` on a fresh store: load every record of the
array in order (`none` when any record raises). -/
def loadRecords : List Rec → Option (List Book)
  | [] => some []
  | r :: rest =>
    match loadRec r, loadRecords rest with
    | some b, some bs => some (b :: bs)
    | _, _ => none

/-- `Library.find_book(title=None, isbn=None)`.  For each stored book the
condition `(book and book.title.lower() == title.lower()) or (isbn and
book.isbn == isbn)` is evaluated: `book` is always truthy, so
`title.lower()` is evaluated first and raises AttributeError when `title`
is `None` (modelled as `Except.error ()`); the isbn disjunct only fires for
a non-None, non-empty `isbn` argument. -/
def findBook (books : List Book) (title isbn : Option String) :
    Except Unit (Option Book) :=
  match books with
  | [] => .ok none
  | b :: rest =>
    match title with
    | none => .error ()
    | some t =>
      if b.title.toLower == t.toLower
          || ((isbn.getD "") != "" && b.isbn == isbn.getD "") then
        .ok (some b)
      else
        findBook rest title isbn

/-- `Library.add_book` of the legacy layer: a silent no-op when the isbn is
already present, else append and persist. -/
def addBook (books : List Book) (b : Book) : List Book :=
  if books.any fun x => x.isbn == b.isbn then books else books ++ [b]

end Legacy

open App

/-- A successful isbn lookup returns a member of the table whose isbn is
the key. -/
theorem get_by_isbn_spec {books : List Book} {i : String} {b : Book}
    (h : BookRepository.get_by_isbn books i = some b) :
    b ∈ books ∧ b.isbn = i := by
  refine ⟨List.mem_of_find?_eq_some h, ?_⟩
  have := List.find?_some h
  simpa using this

/-- A failed isbn lookup means no row carries the key. -/
theorem get_by_isbn_none {books : List Book} {i : String}
    (h : BookRepository.get_by_isbn books i = none) :
    ∀ b ∈ books, b.isbn ≠ i := by
  intro b hb
  have := List.find?_eq_none.mp h b hb
  simpa using this

/-- Membership in an active-loan query result. -/
theorem mem_activeFor {r : BorrowRecord} {records : List BorrowRecord} {i : String} :
    r ∈ BorrowRecordRepository.activeFor records i ↔
      r ∈ records ∧ r.isbn = i ∧ r.returned = false := by
  simp [BorrowRecordRepository.activeFor, List.mem_filter, and_assoc]

/-- Active-loan queries distribute over appended tables. -/
theorem activeFor_append (rec1 rec2 : List BorrowRecord) (i : String) :
    BorrowRecordRepository.activeFor (rec1 ++ rec2) i =
      BorrowRecordRepository.activeFor rec1 i ++ BorrowRecordRepository.activeFor rec2 i :=
  List.filter_append _ _

/-- Updating a status never changes an isbn. -/
theorem isbn_update_entry (y : Book) (i st : String) :
    (if y.isbn == i then { y with status := st } else y).isbn = y.isbn := by
  by_cases h : y.isbn == i <;> simp [h]

/-- Looking up the updated isbn finds the same row with the new status. -/
theorem get_by_isbn_update_self (books : List Book) (i st : String) :
    BookRepository.get_by_isbn (BookRepository.update_status books i st) i =
      (BookRepository.get_by_isbn books i).map fun b => { b with status := st } := by
  induction books with
  | nil => rfl
  | cons b bs ih =>
    by_cases hb : b.isbn = i
    · simp [BookRepository.get_by_isbn, BookRepository.update_status,
        List.find?_cons, hb] at ih ⊢
    · simp [BookRepository.get_by_isbn, BookRepository.update_status,
        List.find?_cons, hb] at ih ⊢
      exact ih

/-- A table that still holds a given isbn keeps holding it after a status
update. -/
theorem exists_isbn_update_status {books : List Book} {j : String}
    (h : ∃ b ∈ books, b.isbn = j) (i st : String) :
    ∃ b ∈ BookRepository.update_status books i st, b.isbn = j := by
  obtain ⟨b, hb, hj⟩ := h
  exact ⟨_, List.mem_map.mpr ⟨b, hb, rfl⟩, by rw [isbn_update_entry]; exact hj⟩

/-- Mapping a function that fixes every element of a list is a no-op. -/
theorem map_noop {α : Type} {l : List α} {f : α → α} (h : ∀ a ∈ l, f a = a) :
    l.map f = l := by
  rw [List.map_congr_left h]
  simp

/-- Two members of a list of length at most one coincide. -/
theorem eq_of_len_le_one {α : Type} {l : List α} {a b : α}
    (h : l.length ≤ 1) (ha : a ∈ l) (hb : b ∈ l) : a = b := by
  match l, ha, hb with
  | [x], ha, hb => rw [List.mem_singleton.mp ha, List.mem_singleton.mp hb]
  | x :: y :: rest, _, _ => simp at h

/-- The matching condition of the repository UPDATE, in propositional
form. -/
theorem matchesRow_iff {r : BorrowRecord} {m : Nat} {i : String} :
    BorrowRecordRepository.matchesRow r m i = true ↔
      r.member_id = m ∧ r.isbn = i ∧ r.returned = false := by
  simp [BorrowRecordRepository.matchesRow, and_assoc]

/-- C2: in every state where the book with the given isbn exists, has
status "available" and has no active loan record, borrow_book succeeds,
and afterwards the book's status is "borrowed" and exactly one active loan
record for the isbn exists. -/
theorem c2_borrow_available_succeeds (s : LibState) (m : Nat) (i : String)
    (b : Book)
    (hfind : BookRepository.get_by_isbn s.books i = some b)
    (hstatus : b.status = "available")
    (hactive : BorrowRecordRepository.activeFor s.records i = []) :
    ∃ s1, LibraryService.borrow_book s m i = .ok s1 ∧
      BookRepository.get_by_isbn s1.books i = some { b with status := "borrowed" } ∧
      BorrowRecordRepository.activeFor s1.records i = [⟨m, i, false⟩] := by
  refine ⟨{ s with records := BorrowRecordRepository.create s.records m i, books := BookRepository.update_status s.books i "borrowed" }, ?_, ?_, ?_⟩
  · simp [LibraryService.borrow_book, hfind, hstatus,
      BorrowRecordRepository.get_active_by_isbn, hactive]
  · simp only [get_by_isbn_update_self, hfind, Option.map_some']
  · simp only [BorrowRecordRepository.create, activeFor_append, hactive,
      List.nil_append]
    simp [BorrowRecordRepository.activeFor]

/-- Witness for C2 at a concrete one-book store. -/
theorem c2_borrow_available_succeeds_witness :
    ∃ s1, LibraryService.borrow_book ⟨[⟨"1111111111", "T", "A", "available"⟩], [], []⟩
        4 "1111111111" = .ok s1 ∧
      BookRepository.get_by_isbn s1.books "1111111111" =
        some ⟨"1111111111", "T", "A", "borrowed"⟩ ∧
      BorrowRecordRepository.activeFor s1.records "1111111111" =
        [⟨4, "1111111111", false⟩] :=
  c2_borrow_available_succeeds ⟨[⟨"1111111111", "T", "A", "available"⟩], [], []⟩
    4 "1111111111" ⟨"1111111111", "T", "A", "available"⟩ (by decide) rfl rfl

/-- C3: in every state where the book with the given isbn exists and is
either marked "borrowed" or has an active loan record (the ledger holding,
as in every reachable state, at most one active record per isbn),
borrow_book fails with the invalid-state error and the state is
unchanged. -/
theorem c3_borrow_borrowed_fails (s : LibState) (m : Nat) (i : String) (b : Book)
    (hfind : BookRepository.get_by_isbn s.books i = some b)
    (hcond : b.status = "borrowed" ∨
      (BorrowRecordRepository.activeFor s.records i ≠ [] ∧
       (BorrowRecordRepository.activeFor s.records i).length ≤ 1)) :
    LibraryService.borrow_book s m i = .error .invalidState ∧
      App.step s (.borrow m i) = s := by
  have hmain : LibraryService.borrow_book s m i = .error .invalidState := by
    by_cases hav : b.status = "available"
    · have hpair : BorrowRecordRepository.activeFor s.records i ≠ [] ∧
          (BorrowRecordRepository.activeFor s.records i).length ≤ 1 := by
        rcases hcond with h | h
        · rw [hav] at h; exact absurd h (by decide)
        · exact h
      obtain ⟨hne, hlen⟩ := hpair
      cases hl : BorrowRecordRepository.activeFor s.records i with
      | nil => exact absurd hl hne
      | cons r rest =>
        cases rest with
        | nil =>
          simp [LibraryService.borrow_book, hfind, hav,
            BorrowRecordRepository.get_active_by_isbn, hl]
        | cons r2 rest2 => rw [hl] at hlen; simp at hlen
    · simp [LibraryService.borrow_book, hfind, hav]
  exact ⟨hmain, by simp [App.step, hmain]⟩

/-- Witness for C3 at a concrete borrowed book. -/
theorem c3_borrow_borrowed_fails_witness :
    LibraryService.borrow_book
        ⟨[⟨"1111111111", "T", "A", "borrowed"⟩], [], [⟨1, "1111111111", false⟩]⟩
        2 "1111111111" = .error .invalidState ∧
      App.step ⟨[⟨"1111111111", "T", "A", "borrowed"⟩], [], [⟨1, "1111111111", false⟩]⟩
        (.borrow 2 "1111111111") =
        ⟨[⟨"1111111111", "T", "A", "borrowed"⟩], [], [⟨1, "1111111111", false⟩]⟩ :=
  c3_borrow_borrowed_fails
    ⟨[⟨"1111111111", "T", "A", "borrowed"⟩], [], [⟨1, "1111111111", false⟩]⟩
    2 "1111111111" ⟨"1111111111", "T", "A", "borrowed"⟩ (by decide) (Or.inl rfl)

/-- Shared kernel of C4 and C10: when no stored record matches the member,
isbn and NULL return date, the return operation reports `false` and the
state is returned untouched. -/
theorem return_book_no_match (s : LibState) (m : Nat) (i : String) (b : Book)
    (hfind : BookRepository.get_by_isbn s.books i = some b)
    (hnone : ∀ r ∈ s.records, ¬(r.member_id = m ∧ r.isbn = i ∧ r.returned = false)) :
    LibraryService.return_book s m i = .ok (false, s) := by
  have hany : (s.records.any fun r => BorrowRecordRepository.matchesRow r m i) = false := by
    rw [List.any_eq_false]
    intro r hr hmr
    exact hnone r hr (matchesRow_iff.mp hmr)
  have hmap : BorrowRecordRepository.closeLoans s.records m i = s.records := by
    unfold BorrowRecordRepository.closeLoans
    apply map_noop
    intro r hr
    rw [if_neg]
    intro hmr
    exact hnone r hr (matchesRow_iff.mp hmr)
  simp [LibraryService.return_book, hfind, BorrowRecordRepository.return_book,
    hany, hmap]

/-- C4: in every state where the book exists but no active record matches
the (member, isbn) pair, return_book returns false without an error and
leaves the whole state, in particular the book status and the ledger,
unchanged. -/
theorem c4_return_silent_failure (s : LibState) (m : Nat) (i : String) (b : Book)
    (hfind : BookRepository.get_by_isbn s.books i = some b)
    (hnone : ∀ r ∈ s.records, ¬(r.member_id = m ∧ r.isbn = i ∧ r.returned = false)) :
    LibraryService.return_book s m i = .ok (false, s) ∧ App.step s (.ret m i) = s := by
  have hmain := return_book_no_match s m i b hfind hnone
  exact ⟨hmain, by simp [App.step, hmain]⟩

/-- Witness for C4: a catalogued book with an empty ledger. -/
theorem c4_return_silent_failure_witness :
    LibraryService.return_book ⟨[⟨"1111111111", "T", "A", "available"⟩], [], []⟩
        3 "1111111111" =
      .ok (false, ⟨[⟨"1111111111", "T", "A", "available"⟩], [], []⟩) ∧
      App.step ⟨[⟨"1111111111", "T", "A", "available"⟩], [], []⟩ (.ret 3 "1111111111") =
        ⟨[⟨"1111111111", "T", "A", "available"⟩], [], []⟩ :=
  c4_return_silent_failure ⟨[⟨"1111111111", "T", "A", "available"⟩], [], []⟩
    3 "1111111111" ⟨"1111111111", "T", "A", "available"⟩ (by decide) (by decide)

/-- C5: adding a book whose isbn is already catalogued fails with the
duplicate error and leaves the state (hence the catalog and its size)
unchanged.  This is the service-layer add; the legacy `Library.add_book`
instead ignores duplicates silently, see `Legacy.addBook`. -/
theorem c5_add_duplicate_fails (s : LibState) (b : Book)
    (h : ∃ b0 ∈ s.books, b0.isbn = b.isbn) :
    LibraryService.add_book s b = .error .duplicate ∧ App.step s (.add b) = s := by
  have hsome : (BookRepository.get_by_isbn s.books b.isbn).isSome := by
    obtain ⟨b0, hb0, hi⟩ := h
    unfold BookRepository.get_by_isbn
    rw [List.find?_isSome]
    exact ⟨b0, hb0, by simp [hi]⟩
  obtain ⟨b0, hb0⟩ := Option.isSome_iff_exists.mp hsome
  have hmain : LibraryService.add_book s b = .error .duplicate := by
    simp [LibraryService.add_book, hb0]
  exact ⟨hmain, by simp [App.step, hmain]⟩

/-- Witness for C5: re-adding an isbn already in a one-book catalog. -/
theorem c5_add_duplicate_fails_witness :
    LibraryService.add_book ⟨[⟨"1111111111", "T", "A", "available"⟩], [], []⟩
        ⟨"1111111111", "T2", "A2", "available"⟩ = .error .duplicate ∧
      App.step ⟨[⟨"1111111111", "T", "A", "available"⟩], [], []⟩
        (.add ⟨"1111111111", "T2", "A2", "available"⟩) =
        ⟨[⟨"1111111111", "T", "A", "available"⟩], [], []⟩ :=
  c5_add_duplicate_fails ⟨[⟨"1111111111", "T", "A", "available"⟩], [], []⟩
    ⟨"1111111111", "T2", "A2", "available"⟩ (by decide)

/-- C10: when the only active record for a borrowed book belongs to member
A, a return attempted by any other member B reports false and leaves the
state untouched, so the book stays "borrowed" and A's record stays
active. -/
theorem c10_return_other_member_false (s : LibState) (A B : Nat) (i : String)
    (bk : Book)
    (hfind : BookRepository.get_by_isbn s.books i = some bk)
    (hstatus : bk.status = "borrowed")
    (hA : ∃ r ∈ s.records, r.member_id = A ∧ r.isbn = i ∧ r.returned = false)
    (honly : ∀ r ∈ s.records, r.isbn = i → r.returned = false → r.member_id = A)
    (hBA : B ≠ A) :
    LibraryService.return_book s B i = .ok (false, s) ∧ App.step s (.ret B i) = s := by
  have hnone : ∀ r ∈ s.records, ¬(r.member_id = B ∧ r.isbn = i ∧ r.returned = false) := by
    rintro r hr ⟨h1, h2, h3⟩
    exact hBA (h1.symm.trans (honly r hr h2 h3))
  have hmain := return_book_no_match s B i bk hfind hnone
  exact ⟨hmain, by simp [App.step, hmain]⟩

/-- Witness for C10: member 2 tries to return member 1's loan. -/
theorem c10_return_other_member_false_witness :
    LibraryService.return_book
        ⟨[⟨"1111111111", "T", "A", "borrowed"⟩], [⟨1, "Alice"⟩], [⟨1, "1111111111", false⟩]⟩
        2 "1111111111" =
      .ok (false,
        ⟨[⟨"1111111111", "T", "A", "borrowed"⟩], [⟨1, "Alice"⟩], [⟨1, "1111111111", false⟩]⟩) ∧
      App.step
        ⟨[⟨"1111111111", "T", "A", "borrowed"⟩], [⟨1, "Alice"⟩], [⟨1, "1111111111", false⟩]⟩
        (.ret 2 "1111111111") =
        ⟨[⟨"1111111111", "T", "A", "borrowed"⟩], [⟨1, "Alice"⟩], [⟨1, "1111111111", false⟩]⟩ :=
  c10_return_other_member_false
    ⟨[⟨"1111111111", "T", "A", "borrowed"⟩], [⟨1, "Alice"⟩], [⟨1, "1111111111", false⟩]⟩
    1 2 "1111111111" ⟨"1111111111", "T", "A", "borrowed"⟩
    (by decide) rfl (by decide) (by decide) (by decide)

/-- C6 counterexample: in a store with one available book and NO members at
all, borrow_book for member 7 does not fail with the not-found error — it
succeeds and creates a loan record for the unknown member (the service
never consults the member repository). -/
theorem c6_unknown_member_counterexample :
    LibraryService.borrow_book ⟨[⟨"1111111111", "1984", "George Orwell", "available"⟩], [], []⟩
        7 "1111111111" =
      .ok ⟨[⟨"1111111111", "1984", "George Orwell", "borrowed"⟩], [],
           [⟨7, "1111111111", false⟩]⟩ := by
  rfl

/-- C6 as amended: borrow_book performs no member validation.  For every
state whose catalog holds the isbn with status "available" and no active
loan, and every member id that has no Member record, borrowing succeeds,
leaves the member table unchanged, and files an active loan record under
the unknown member id. -/
theorem c6_no_member_validation (s : LibState) (m : Nat) (i : String) (b : Book)
    (hfind : BookRepository.get_by_isbn s.books i = some b)
    (hstatus : b.status = "available")
    (hactive : BorrowRecordRepository.activeFor s.records i = [])
    (hno_member : ∀ mem ∈ s.members, mem.id ≠ m) :
    ∃ s1, LibraryService.borrow_book s m i = .ok s1 ∧
      s1.members = s.members ∧
      (⟨m, i, false⟩ : BorrowRecord) ∈ s1.records := by
  refine ⟨{ s with records := BorrowRecordRepository.create s.records m i, books := BookRepository.update_status s.books i "borrowed" }, ?_, rfl, ?_⟩
  · simp [LibraryService.borrow_book, hfind, hstatus,
      BorrowRecordRepository.get_active_by_isbn, hactive]
  · simp [BorrowRecordRepository.create]

/-- Witness for C6 as amended, at the counterexample's concrete store. -/
theorem c6_no_member_validation_witness :
    ∃ s1, LibraryService.borrow_book
        ⟨[⟨"1111111111", "1984", "George Orwell", "available"⟩], [], []⟩ 7 "1111111111" =
        .ok s1 ∧
      s1.members = [] ∧ (⟨7, "1111111111", false⟩ : BorrowRecord) ∈ s1.records :=
  c6_no_member_validation ⟨[⟨"1111111111", "1984", "George Orwell", "available"⟩], [], []⟩
    7 "1111111111" ⟨"1111111111", "1984", "George Orwell", "available"⟩
    (by decide) rfl rfl (by decide)


/-- Filtering after a map that never turns a rejected element into an
accepted one cannot grow the result. -/
theorem filter_map_length_le {α : Type} (p : α → Bool) (f : α → α)
    (hf : ∀ a, p (f a) = true → p a = true) (l : List α) :
    (List.filter p (l.map f)).length ≤ (List.filter p l).length := by
  induction l with
  | nil => exact Nat.le_refl _
  | cons a l ih =>
    rw [List.map_cons, List.filter_cons, List.filter_cons]
    by_cases hpf : p (f a) = true
    · rw [if_pos hpf, if_pos (hf a hpf)]
      simp only [List.length_cons]
      omega
    · rw [if_neg hpf]
      by_cases hpa : p a = true
      · rw [if_pos hpa]
        simp only [List.length_cons]
        omega
      · rw [if_neg hpa]
        exact ih

/-- Filtering after a map that preserves the predicate and fixes every
accepted element is the same as filtering directly. -/
theorem filter_map_eq {α : Type} (p : α → Bool) (f : α → α)
    (hp : ∀ a, p (f a) = p a) (hf : ∀ a, p a = true → f a = a) (l : List α) :
    List.filter p (l.map f) = List.filter p l := by
  induction l with
  | nil => rfl
  | cons a l ih =>
    rw [List.map_cons, List.filter_cons, List.filter_cons, hp a]
    by_cases hpa : p a = true
    · rw [if_pos hpa, if_pos hpa, hf a hpa, ih]
    · rw [if_neg hpa, if_neg hpa, ih]

/-- Closing records can only shrink the set of active loans for any isbn. -/
theorem activeFor_close_length_le (records : List BorrowRecord) (m : Nat) (i j : String) :
    (BorrowRecordRepository.activeFor (BorrowRecordRepository.closeLoans records m i) j).length ≤
      (BorrowRecordRepository.activeFor records j).length := by
  unfold BorrowRecordRepository.closeLoans BorrowRecordRepository.activeFor
  apply filter_map_length_le
  intro a hpa
  by_cases hm : BorrowRecordRepository.matchesRow a m i = true
  · rw [if_pos hm] at hpa
    simp at hpa
  · rw [if_neg hm] at hpa
    exact hpa

/-- Closing records for one isbn leaves the active loans of every other
isbn untouched. -/
theorem activeFor_close_ne (records : List BorrowRecord) (m : Nat) {i j : String}
    (hne : j ≠ i) :
    BorrowRecordRepository.activeFor (BorrowRecordRepository.closeLoans records m i) j =
      BorrowRecordRepository.activeFor records j := by
  unfold BorrowRecordRepository.closeLoans BorrowRecordRepository.activeFor
  apply filter_map_eq
  · intro a
    by_cases hm : BorrowRecordRepository.matchesRow a m i = true
    · rw [if_pos hm]
      have hai : a.isbn = i := (matchesRow_iff.mp hm).2.1
      have hj : (a.isbn == j) = false := by
        simp [hai]
        exact fun h => hne h.symm
      simp [hj]
    · rw [if_neg hm]
  · intro a hpa
    by_cases hm : BorrowRecordRepository.matchesRow a m i = true
    · have hai : a.isbn = i := (matchesRow_iff.mp hm).2.1
      have haj : a.isbn = j := by
        simp only [Bool.and_eq_true, beq_iff_eq] at hpa
        exact hpa.1
      exact absurd (haj.symm.trans hai) hne
    · rw [if_neg hm]

/-- When the table holds at most one active loan for the isbn and some row
of it matches the closing UPDATE, no active loan for the isbn survives the
UPDATE. -/
theorem activeFor_close_self (records : List BorrowRecord) (m : Nat) (i : String)
    (r0 : BorrowRecord) (hr0 : r0 ∈ records)
    (hm0 : BorrowRecordRepository.matchesRow r0 m i = true)
    (hlen : (BorrowRecordRepository.activeFor records i).length ≤ 1) :
    BorrowRecordRepository.activeFor (BorrowRecordRepository.closeLoans records m i) i = [] := by
  rw [List.eq_nil_iff_forall_not_mem]
  intro x hx
  rw [mem_activeFor] at hx
  obtain ⟨hxmem, hxi, hxret⟩ := hx
  unfold BorrowRecordRepository.closeLoans at hxmem
  obtain ⟨r, hr, hfr⟩ := List.mem_map.mp hxmem
  by_cases hm : BorrowRecordRepository.matchesRow r m i = true
  · rw [if_pos hm] at hfr
    rw [← hfr] at hxret
    simp at hxret
  · rw [if_neg hm] at hfr
    subst hfr
    have hrA : r ∈ BorrowRecordRepository.activeFor records i :=
      mem_activeFor.mpr ⟨hr, hxi, hxret⟩
    have hr0A : r0 ∈ BorrowRecordRepository.activeFor records i :=
      mem_activeFor.mpr ⟨hr0, (matchesRow_iff.mp hm0).2.1, (matchesRow_iff.mp hm0).2.2⟩
    have heq : r = r0 := eq_of_len_le_one hlen hrA hr0A
    rw [heq] at hm
    exact hm hm0

/-- The operations allowed by the amended claim C1: additions of books that
do not already claim status "borrowed", borrows and returns; no
deletions. -/
def goodOp : Op → Bool
  | .add b => b.status != "borrowed"
  | .borrow _ _ => true
  | .ret _ _ => true
  | .del _ => false

/-- Inductive invariant implying C1's consistency property: the status and
ledger agreement itself, at most one active loan per isbn, and every
active loan's isbn still catalogued. -/
def StrongInv (s : LibState) : Prop :=
  App.StatusLoanInv s ∧
  (∀ i, (BorrowRecordRepository.activeFor s.records i).length ≤ 1) ∧
  (∀ r ∈ s.records, r.returned = false → ∃ b ∈ s.books, b.isbn = r.isbn)

/-- Every allowed operation preserves the strengthened invariant. -/
theorem step_preserves_strong (s : LibState) (op : Op) (hs : StrongInv s)
    (hop : goodOp op = true) : StrongInv (App.step s op) := by
  obtain ⟨hinv, hone, hbook⟩ := hs
  cases op with
  | add b =>
    cases hfind : BookRepository.get_by_isbn s.books b.isbn with
    | some b0 => simpa [App.step, LibraryService.add_book, hfind] using ⟨hinv, hone, hbook⟩
    | none =>
      have hb : b.status ≠ "borrowed" := by
        simp only [goodOp] at hop
        exact bne_iff_ne.mp hop
      have hstep : App.step s (.add b) = { s with books := s.books ++ [b] } := by
        simp [App.step, LibraryService.add_book, hfind, BookRepository.create]
      rw [hstep]
      refine ⟨?_, fun j => hone j, ?_⟩
      · intro x hx
        rcases List.mem_append.mp hx with hx1 | hx2
        · exact hinv x hx1
        · have hxb : x = b := by simpa using hx2
          subst hxb
          constructor
          · intro hst
            exact absurd hst hb
          · intro hne
            obtain ⟨r, hr⟩ := List.exists_mem_of_ne_nil _ hne
            rw [mem_activeFor] at hr
            obtain ⟨hrmem, hri, hra⟩ := hr
            obtain ⟨bb, hbb, hbi⟩ := hbook r hrmem hra
            exact absurd (hbi.trans hri) (get_by_isbn_none hfind bb hbb)
      · intro r hr hra
        obtain ⟨bb, hbb, hbi⟩ := hbook r hr hra
        exact ⟨bb, List.mem_append.mpr (Or.inl hbb), hbi⟩
  | borrow m i =>
    cases hfind : BookRepository.get_by_isbn s.books i with
    | none => simpa [App.step, LibraryService.borrow_book, hfind] using ⟨hinv, hone, hbook⟩
    | some db =>
      by_cases hav : db.status = "available"
      · cases hl : BorrowRecordRepository.activeFor s.records i with
        | cons r rest =>
          cases rest with
          | nil =>
            simpa [App.step, LibraryService.borrow_book, hfind, hav,
              BorrowRecordRepository.get_active_by_isbn, hl] using ⟨hinv, hone, hbook⟩
          | cons r2 rest2 =>
            simpa [App.step, LibraryService.borrow_book, hfind, hav,
              BorrowRecordRepository.get_active_by_isbn, hl] using ⟨hinv, hone, hbook⟩
        | nil =>
          obtain ⟨hdbmem, hdbisbn⟩ := get_by_isbn_spec hfind
          have hstep : App.step s (.borrow m i) =
              ⟨BookRepository.update_status s.books i "borrowed", s.members,
                s.records ++ [⟨m, i, false⟩]⟩ := by
            simp [App.step, LibraryService.borrow_book, hfind, hav,
              BorrowRecordRepository.get_active_by_isbn, hl, BorrowRecordRepository.create]
          rw [hstep]
          refine ⟨?_, ?_, ?_⟩
          · intro x hx
            obtain ⟨y, hy, hfy⟩ := List.mem_map.mp hx
            by_cases hyi : y.isbn = i
            · rw [if_pos (by simp [hyi])] at hfy
              rw [← hfy]
              have hxisbn : ({ y with status := "borrowed" } : Book).isbn = i := hyi
              rw [hxisbn]
              constructor
              · intro _
                rw [activeFor_append, hl]
                simp [BorrowRecordRepository.activeFor]
              · intro _
                rfl
            · rw [if_neg (by simp [hyi])] at hfy
              rw [← hfy]
              rw [activeFor_append]
              have hnew : BorrowRecordRepository.activeFor [⟨m, i, false⟩] y.isbn = [] := by
                simp [BorrowRecordRepository.activeFor]
                exact fun h => hyi h.symm
              rw [hnew, List.append_nil]
              exact hinv y hy
          · intro j
            rw [activeFor_append]
            by_cases hj : j = i
            · rw [hj, hl]
              simp [BorrowRecordRepository.activeFor]
            · have hnew : BorrowRecordRepository.activeFor [⟨m, i, false⟩] j = [] := by
                simp [BorrowRecordRepository.activeFor]
                exact fun h => hj h.symm
              rw [hnew, List.append_nil]
              exact hone j
          · intro r hr hra
            rcases List.mem_append.mp hr with h1 | h2
            · obtain ⟨bb, hbb, hbi⟩ := hbook r h1 hra
              exact exists_isbn_update_status ⟨bb, hbb, hbi⟩ i "borrowed"
            · have hrn : r = ⟨m, i, false⟩ := by simpa using h2
              rw [hrn]
              exact exists_isbn_update_status ⟨db, hdbmem, hdbisbn⟩ i "borrowed"
      · simpa [App.step, LibraryService.borrow_book, hfind, hav] using ⟨hinv, hone, hbook⟩
  | ret m i =>
    cases hfind : BookRepository.get_by_isbn s.books i with
    | none => simpa [App.step, LibraryService.return_book, hfind] using ⟨hinv, hone, hbook⟩
    | some db =>
      cases hsucc : s.records.any fun r => BorrowRecordRepository.matchesRow r m i with
      | false =>
        have hmap : BorrowRecordRepository.closeLoans s.records m i = s.records := by
          unfold BorrowRecordRepository.closeLoans
          apply map_noop
          intro r hr
          rw [if_neg]
          intro hm
          exact absurd hm (List.any_eq_false.mp hsucc r hr)
        have hstep : App.step s (.ret m i) = s := by
          simp [App.step, LibraryService.return_book, hfind,
            BorrowRecordRepository.return_book, hsucc, hmap]
        rw [hstep]
        exact ⟨hinv, hone, hbook⟩
      | true =>
        obtain ⟨r0, hr0, hm0⟩ := List.any_eq_true.mp hsucc
        have hstep : App.step s (.ret m i) =
            ⟨BookRepository.update_status s.books i "available", s.members,
              BorrowRecordRepository.closeLoans s.records m i⟩ := by
          simp [App.step, LibraryService.return_book, hfind,
            BorrowRecordRepository.return_book, hsucc]
        rw [hstep]
        refine ⟨?_, ?_, ?_⟩
        · intro x hx
          obtain ⟨y, hy, hfy⟩ := List.mem_map.mp hx
          by_cases hyi : y.isbn = i
          · rw [if_pos (by simp [hyi])] at hfy
            rw [← hfy]
            have hxisbn : ({ y with status := "available" } : Book).isbn = i := hyi
            rw [hxisbn]
            constructor
            · intro h
              exact absurd h (by simp)
            · intro hne
              exact absurd (activeFor_close_self s.records m i r0 hr0 hm0 (hone i)) hne
          · rw [if_neg (by simp [hyi])] at hfy
            rw [← hfy]
            rw [activeFor_close_ne s.records m hyi]
            exact hinv y hy
        · intro j
          exact le_trans (activeFor_close_length_le s.records m i j) (hone j)
        · intro r' hr' hra'
          obtain ⟨r, hr, hfr⟩ := List.mem_map.mp hr'
          by_cases hm : BorrowRecordRepository.matchesRow r m i = true
          · rw [if_pos hm] at hfr
            rw [← hfr] at hra'
            simp at hra'
          · rw [if_neg hm] at hfr
            subst hfr
            obtain ⟨bb, hbb, hbi⟩ := hbook r hr hra'
            exact exists_isbn_update_status ⟨bb, hbb, hbi⟩ i "available"
  | del i => simp [goodOp] at hop

/-- Folding allowed operations preserves the strengthened invariant. -/
theorem foldl_step_strong (ops : List Op) : ∀ s, StrongInv s →
    (∀ op ∈ ops, goodOp op = true) → StrongInv (ops.foldl App.step s) := by
  induction ops with
  | nil =>
    intro s hs _
    exact hs
  | cons op rest ih =>
    intro s hs h
    rw [List.foldl_cons]
    exact ih _ (step_preserves_strong s op hs (h op (List.mem_cons_self op rest)))
      fun o ho => h o (List.mem_cons_of_mem op ho)

/-- The empty store satisfies the strengthened invariant. -/
theorem strongInv_empty : StrongInv LibState.empty := by
  refine ⟨?_, ?_, ?_⟩ <;>
    simp [App.StatusLoanInv, LibState.empty, BorrowRecordRepository.activeFor]

/-- C1 counterexample: borrow a book, delete it (its active loan record is
orphaned, not cascaded), then re-add the same isbn as available.  The
final state — reached by a sequence of the four service operations from
the empty store — has an available book with an active loan record, so the
claimed invariant fails over the full operation set. -/
theorem c1_invariant_counterexample :
    ¬ App.StatusLoanInv (App.runOps
      [.add ⟨"1111111111", "T", "A", "available"⟩,
       .borrow 1 "1111111111",
       .del "1111111111",
       .add ⟨"1111111111", "T", "A", "available"⟩]) := by
  decide

/-- C1 as amended: over sequences of add_book (with books not claiming
status "borrowed" on entry), borrow_book and return_book — no delete_book —
every state reachable from the empty store satisfies the status and ledger
agreement: a catalogued book has status "borrowed" exactly when an active
loan record for its isbn exists. -/
theorem c1_status_loan_invariant (ops : List Op)
    (h : ∀ op ∈ ops, goodOp op = true) :
    App.StatusLoanInv (App.runOps ops) :=
  (foldl_step_strong ops LibState.empty strongInv_empty h).1

/-- Witness for the amended C1 on a concrete add, borrow, return run. -/
theorem c1_status_loan_invariant_witness :
    App.StatusLoanInv (App.runOps
      [.add ⟨"1111111111", "T", "A", "available"⟩,
       .borrow 1 "1111111111",
       .ret 1 "1111111111"]) :=
  c1_status_loan_invariant
    [.add ⟨"1111111111", "T", "A", "available"⟩,
     .borrow 1 "1111111111",
     .ret 1 "1111111111"] (by decide)

/-- Loading the dict a book saved to restores the very same book. -/
theorem loadRec_toDict (b : Legacy.Book) :
    Legacy.loadRec (Legacy.toDict b) = some b := by
  cases b with
  | book t a i f => cases f <;> rfl
  | ebook t a i f ff => cases f <;> rfl
  | audiobook t a i f d => cases f <;> rfl

/-- C8: saving any catalog of Book/EBook/AudioBook records to the JSON
layout and loading it into a fresh store restores every record
field-for-field (first conjunct), and the loader maps any record whose
`type` discriminator is absent or not one of the two known subtypes to a
base Book carrying the stored fields (second conjunct). -/
theorem c8_json_roundtrip_and_fallback :
    (∀ books : List Legacy.Book,
      Legacy.loadRecords (Legacy.saveRecords books) = some books) ∧
    (∀ r : Legacy.Rec, r.type ≠ some "EBook" → r.type ≠ some "AudioBook" →
      Legacy.loadRec r = some (.book r.title r.author r.isbn r.is_borrowed)) := by
  constructor
  · intro books
    induction books with
    | nil => rfl
    | cons b rest ih =>
      simp only [Legacy.saveRecords, List.map_cons] at ih ⊢
      rw [Legacy.loadRecords, loadRec_toDict, ih]
  · intro r h1 h2
    unfold Legacy.loadRec
    cases htype : r.type with
    | none =>
      simp only [Option.getD]
      rw [if_neg (by decide), if_neg (by decide)]
      cases hb : r.is_borrowed <;> simp [Legacy.Book.setBorrowed]
    | some t =>
      have ht1 : t ≠ "EBook" := fun h => h1 (by rw [htype, h])
      have ht2 : t ≠ "AudioBook" := fun h => h2 (by rw [htype, h])
      simp only [Option.getD]
      rw [if_neg ht1, if_neg ht2]
      cases hb : r.is_borrowed <;> simp [Legacy.Book.setBorrowed]

/-- Witness for C8: a concrete mixed catalog round-trips, and a record
with an unknown discriminator loads as a base Book. -/
theorem c8_json_roundtrip_and_fallback_witness :
    Legacy.loadRecords (Legacy.saveRecords
      [.book "LOTR" "Tolkien" "9780618640157" false,
       .ebook "1984" "George Orwell" "9780451524935" true "EPUB",
       .audiobook "Becoming" "Michelle Obama" "9781524763138" false 780]) =
      some
        [.book "LOTR" "Tolkien" "9780618640157" false,
         .ebook "1984" "George Orwell" "9780451524935" true "EPUB",
         .audiobook "Becoming" "Michelle Obama" "9781524763138" false 780] ∧
    Legacy.loadRec ⟨some "Comic", "X", "Y", "2222222222", true, none, none⟩ =
      some (.book "X" "Y" "2222222222" true) :=
  ⟨c8_json_roundtrip_and_fallback.1
      [.book "LOTR" "Tolkien" "9780618640157" false,
       .ebook "1984" "George Orwell" "9780451524935" true "EPUB",
       .audiobook "Becoming" "Michelle Obama" "9781524763138" false 780],
   c8_json_roundtrip_and_fallback.2 ⟨some "Comic", "X", "Y", "2222222222", true, none, none⟩
      (by decide) (by decide)⟩

/-- C9: `Library.find_book` called with only an isbn argument (title left
as None) raises on every non-empty library — the first loop iteration
evaluates `title.lower()` on None — instead of returning the matching
book; only on an empty library does it return None. -/
theorem c9_find_book_isbn_only_raises :
    (∀ (books : List Legacy.Book) (i : String), books ≠ [] →
      Legacy.findBook books none (some i) = .error ()) ∧
    (∀ i : String, Legacy.findBook [] none (some i) = .ok none) := by
  constructor
  · intro books i h
    cases books with
    | nil => exact absurd rfl h
    | cons b rest => rfl
  · intro i
    rfl

/-- Witness for C9: the error fires even when a book with the searched
isbn is present, and the empty library returns None. -/
theorem c9_find_book_isbn_only_raises_witness :
    Legacy.findBook [.book "1984" "George Orwell" "9780451524935" false]
        none (some "9780451524935") = .error () ∧
    Legacy.findBook [] none (some "9780451524935") = .ok none :=
  ⟨c9_find_book_isbn_only_raises.1
      [.book "1984" "George Orwell" "9780451524935" false] "9780451524935" (by decide),
   c9_find_book_isbn_only_raises.2 "9780451524935"⟩


/-- The empty pattern is a substring of every character list. -/
theorem containsSub_nil (l : List Char) : BookRepository.containsSub l [] = true := by
  cases l with
  | nil => rfl
  | cons c rest => rfl

/-- A pattern starting with `%` matches a text exactly when its remainder
matches some suffix of the text. -/
theorem likeMatch_percent (ps t : List Char) :
    BookRepository.likeMatch ('%' :: ps) t = t.tails.any fun suf => BookRepository.likeMatch ps suf := by
  simp [BookRepository.likeMatch]

/-- The pattern `%` alone matches every text. -/
theorem likeMatch_percent_nil (t : List Char) : BookRepository.likeMatch ['%'] t = true := by
  rw [likeMatch_percent]
  induction t with
  | nil => rfl
  | cons x ts ih =>
    rw [List.tails_cons, List.any_cons, ih]
    simp

/-- A wildcard-free pattern followed by `%` matches a text exactly when the
pattern is a literal prefix of it. -/
theorem likeMatch_lit (ps : List Char) (h : ∀ c ∈ ps, c ≠ '%' ∧ c ≠ '_') (t : List Char) :
    BookRepository.likeMatch (ps ++ ['%']) t = ps.isPrefixOf t := by
  induction ps generalizing t with
  | nil =>
    rw [List.nil_append, likeMatch_percent_nil]
    cases t <;> rfl
  | cons c ps ih =>
    obtain ⟨hc1, hc2⟩ := h c (List.mem_cons_self c ps)
    have hrest : ∀ x ∈ ps, x ≠ '%' ∧ x ≠ '_' := fun x hx => h x (List.mem_cons_of_mem c hx)
    rw [List.cons_append]
    cases t with
    | nil =>
      simp only [BookRepository.likeMatch]
      rw [if_neg hc1]
      rfl
    | cons x ts =>
      simp only [BookRepository.likeMatch]
      rw [if_neg hc1, if_neg hc2, ih hrest]
      rfl

/-- For a wildcard-free core pattern, the LIKE pattern `%core%` matches a
text exactly when the core occurs in it as a literal substring. -/
theorem likeMatch_contains (ps : List Char) (h : ∀ c ∈ ps, c ≠ '%' ∧ c ≠ '_') (t : List Char) :
    BookRepository.likeMatch ('%' :: (ps ++ ['%'])) t = BookRepository.containsSub t ps := by
  rw [likeMatch_percent]
  induction t with
  | nil =>
    show (BookRepository.likeMatch (ps ++ ['%']) [] || false) = BookRepository.containsSub [] ps
    rw [likeMatch_lit ps h, Bool.or_false]
    cases ps <;> rfl
  | cons x ts ih =>
    rw [List.tails_cons, List.any_cons, likeMatch_lit ps h, ih]
    rfl

/-- ASCII case folding never maps a character onto one whose code point
lies outside the lowercase-letter range, such as `%` or `_`. -/
theorem toLower_ne (c d : Char) (hd : d.toNat < 97 ∨ 122 < d.toNat) (h1 : c ≠ d) :
    c.toLower ≠ d := by
  unfold Char.toLower
  simp only []
  by_cases h : c.toNat ≥ 65 ∧ c.toNat ≤ 90
  · rw [if_pos h]
    obtain ⟨h65, h90⟩ := h
    intro heq
    have htn := congrArg Char.toNat heq
    have hvalid : (c.toNat + 32).isValidChar := by
      unfold Nat.isValidChar
      left
      omega
    have hofnat : (Char.ofNat (c.toNat + 32)).toNat = c.toNat + 32 := by
      unfold Char.ofNat
      rw [dif_pos hvalid]
      unfold Char.ofNatAux Char.toNat
      simp [UInt32.toNat, BitVec.toNat_ofNatLt]
    rw [hofnat] at htn
    omega
  · rw [if_neg h]
    exact h1

/-- A filter string free of the SQL wildcard characters `%` and `_`. -/
def wildcardFree (pat : String) : Bool :=
  pat.data.all fun c => !(c == '%') && !(c == '_')

/-- `wildcardFree` lifted to an optional filter (an absent filter is
trivially wildcard-free). -/
def wildcardFreeOpt : Option String → Bool
  | some pat => wildcardFree pat
  | none => true

/-- Case folding preserves wildcard-freeness. -/
theorem lower_wildcardFree (pat : String) (h : wildcardFree pat = true) :
    ∀ c ∈ (BookRepository.lower pat).data, c ≠ '%' ∧ c ≠ '_' := by
  intro c hc
  have hdata : (BookRepository.lower pat).data = pat.data.map Char.toLower := rfl
  rw [hdata] at hc
  obtain ⟨c0, hc0, rfl⟩ := List.mem_map.mp hc
  have h0 := List.all_eq_true.mp h c0 hc0
  simp only [Bool.and_eq_true, Bool.not_eq_true', beq_eq_false_iff_ne] at h0
  exact ⟨toLower_ne c0 '%' (by decide) h0.1, toLower_ne c0 '_' (by decide) h0.2⟩

/-- Modelled from the spec's words for claim C7: case-insensitive literal
substring containment of the filter string in the field. -/
def specContains (s pat : String) : Bool :=
  BookRepository.containsSub (BookRepository.lower s).data (BookRepository.lower pat).data

/-- On wildcard-free filters the ILIKE query coincides with the spec's
case-insensitive substring containment. -/
theorem ilike_eq_specContains (s pat : String) (h : wildcardFree pat = true) :
    BookRepository.ilike s pat = specContains s pat :=
  likeMatch_contains (BookRepository.lower pat).data (lower_wildcardFree pat h)
    (BookRepository.lower s).data

/-- An empty filter string is contained in every field. -/
theorem specContains_empty (s : String) : specContains s "" = true :=
  containsSub_nil _

/-- The filter built from an empty containment pattern keeps every book. -/
theorem filter_specContains_empty (l : List Book) (f : Book → String) :
    (l.filter fun b => specContains (f b) "") = l := by
  have hfun : (fun b : Book => specContains (f b) "") = fun _ => true :=
    funext fun b => specContains_empty (f b)
  rw [hfun, List.filter_true]

/-- Modelled from the spec's words for claim C7 (the refinement target,
not a source translation): a book passes when its author and title contain
the present filter strings case-insensitively and its status equals the
present status filter. -/
def specMatches (author title status : Option String) (b : Book) : Bool :=
  (match author with
   | some a => specContains b.author a
   | none => true) &&
  (match title with
   | some t => specContains b.title t
   | none => true) &&
  (match status with
   | some st => b.status == st
   | none => true)

/-- Modelled from the spec's words for claim C7: keep exactly the matching
books, in stable insertion order, then apply offset and limit. -/
def listPerSpec (books : List Book) (skip limit : Nat)
    (author title status : Option String) : List Book :=
  ((books.filter fun b => specMatches author title status b).drop skip).take limit

/-- C7 counterexamples: (1) with the status filter present but empty, the
code skips the status clause entirely (Python truthiness) and returns the
available book, while the claimed exact status match would return nothing;
(2) the author filter "orwel_" reaches the LIKE pattern unescaped, so `_`
acts as a single-character wildcard and the query matches "George Orwell",
which does not contain "orwel_" as a substring. -/
theorem c7_filter_counterexample :
    (BookRepository.get_all [⟨"1111111111", "T", "A", "available"⟩] 0 100
        none none (some "") ≠
      listPerSpec [⟨"1111111111", "T", "A", "available"⟩] 0 100
        none none (some "")) ∧
    (BookRepository.get_all [⟨"1111111111", "1984", "George Orwell", "available"⟩] 0 100
        (some "orwel_") none none ≠
      listPerSpec [⟨"1111111111", "1984", "George Orwell", "available"⟩] 0 100
        (some "orwel_") none none) := by
  constructor
  · decide
  · decide

/-- C7 as amended: for every catalog, offset and limit, every
wildcard-free author/title filter (no SQL `%` or `_` in the filter string,
which the code interpolates into the LIKE pattern unescaped), and every
status filter that is either absent or non-empty (a present-but-empty
status string is dropped by the code's truthiness check instead of being
matched exactly), the repository list query returns exactly the books
passing the spec's filter description, paginated by offset and limit in
stable insertion order. -/
theorem c7_get_all_matches_spec (books : List Book) (skip limit : Nat)
    (author title status : Option String) (hst : status ≠ some "")
    (hwa : wildcardFreeOpt author = true) (hwt : wildcardFreeOpt title = true) :
    BookRepository.get_all books skip limit author title status =
      listPerSpec books skip limit author title status := by
  have hcong : ∀ l1 l2 : List Book, l1 = l2 →
      List.take limit (List.drop skip l1) = List.take limit (List.drop skip l2) :=
    fun l1 l2 h => by rw [h]
  rcases author with _ | a <;> rcases title with _ | t <;> rcases status with _ | st <;>
    simp only [BookRepository.get_all, listPerSpec, specMatches,
      Bool.true_and, Bool.and_true] <;> apply hcong
  · exact (List.filter_true books).symm
  · have hse : st ≠ "" := fun h => hst (by rw [h])
    rw [if_neg hse]
  · by_cases ht : t = ""
    · subst ht
      rw [if_pos rfl]
      exact (filter_specContains_empty books fun b => b.title).symm
    · rw [if_neg ht]
      refine List.filter_congr fun x _ => ?_
      exact ilike_eq_specContains x.title t hwt
  · have hse : st ≠ "" := fun h => hst (by rw [h])
    by_cases ht : t = ""
    · subst ht
      rw [if_pos rfl, if_neg hse]
      refine List.filter_congr fun x _ => ?_
      rw [specContains_empty, Bool.true_and]
    · rw [if_neg ht, if_neg hse, List.filter_filter]
      refine List.filter_congr fun x _ => ?_
      rw [ilike_eq_specContains x.title t hwt]
      exact Bool.and_comm _ _
  · by_cases ha : a = ""
    · subst ha
      rw [if_pos rfl]
      exact (filter_specContains_empty books fun b => b.author).symm
    · rw [if_neg ha]
      refine List.filter_congr fun x _ => ?_
      exact ilike_eq_specContains x.author a hwa
  · have hse : st ≠ "" := fun h => hst (by rw [h])
    by_cases ha : a = ""
    · subst ha
      rw [if_pos rfl, if_neg hse]
      refine List.filter_congr fun x _ => ?_
      rw [specContains_empty, Bool.true_and]
    · rw [if_neg ha, if_neg hse, List.filter_filter]
      refine List.filter_congr fun x _ => ?_
      rw [ilike_eq_specContains x.author a hwa]
      exact Bool.and_comm _ _
  · by_cases ha : a = ""
    · subst ha
      rw [if_pos rfl]
      by_cases ht : t = ""
      · subst ht
        rw [if_pos rfl]
        have hfun : (fun b : Book => specContains b.author "" && specContains b.title "") =
            fun _ : Book => true :=
          funext fun b => by rw [specContains_empty, specContains_empty]; rfl
        rw [hfun, List.filter_true]
      · rw [if_neg ht]
        refine List.filter_congr fun x _ => ?_
        rw [specContains_empty, Bool.true_and, ilike_eq_specContains x.title t hwt]
    · rw [if_neg ha]
      by_cases ht : t = ""
      · subst ht
        rw [if_pos rfl]
        refine List.filter_congr fun x _ => ?_
        rw [specContains_empty, Bool.and_true, ilike_eq_specContains x.author a hwa]
      · rw [if_neg ht, List.filter_filter]
        refine List.filter_congr fun x _ => ?_
        rw [ilike_eq_specContains x.author a hwa, ilike_eq_specContains x.title t hwt]
        exact Bool.and_comm _ _
  · have hse : st ≠ "" := fun h => hst (by rw [h])
    by_cases ha : a = ""
    · subst ha
      rw [if_pos rfl]
      by_cases ht : t = ""
      · subst ht
        rw [if_pos rfl, if_neg hse]
        refine List.filter_congr fun x _ => ?_
        rw [specContains_empty, specContains_empty, Bool.true_and, Bool.true_and]
      · rw [if_neg ht, if_neg hse, List.filter_filter]
        refine List.filter_congr fun x _ => ?_
        rw [specContains_empty, Bool.true_and, ilike_eq_specContains x.title t hwt]
        exact Bool.and_comm _ _
    · rw [if_neg ha]
      by_cases ht : t = ""
      · subst ht
        rw [if_pos rfl, if_neg hse, List.filter_filter]
        refine List.filter_congr fun x _ => ?_
        rw [specContains_empty, Bool.and_true, ilike_eq_specContains x.author a hwa]
        exact Bool.and_comm _ _
      · rw [if_neg ht, if_neg hse, List.filter_filter, List.filter_filter]
        refine List.filter_congr fun x _ => ?_
        rw [ilike_eq_specContains x.author a hwa, ilike_eq_specContains x.title t hwt]
        cases h1 : specContains x.author a <;>
          cases h2 : specContains x.title t <;>
          cases h3 : x.status == st <;> simp [h1, h2, h3]

/-- Witness for the amended C7 at a concrete catalog and filter choice. -/
theorem c7_get_all_matches_spec_witness :
    BookRepository.get_all
        [⟨"1111111111", "1984", "George Orwell", "available"⟩,
         ⟨"2222222222", "Dune", "Frank Herbert", "borrowed"⟩] 0 100
        (some "orwell") none (some "available") =
      listPerSpec
        [⟨"1111111111", "1984", "George Orwell", "available"⟩,
         ⟨"2222222222", "Dune", "Frank Herbert", "borrowed"⟩] 0 100
        (some "orwell") none (some "available") :=
  c7_get_all_matches_spec
    [⟨"1111111111", "1984", "George Orwell", "available"⟩,
     ⟨"2222222222", "Dune", "Frank Herbert", "borrowed"⟩] 0 100
    (some "orwell") none (some "available") (by decide) (by decide) (by decide)
